import Mathlib

/-!
Verification of the Encryptum fork (Python/EVM) core against its
specification.  The Python source is shallowly embedded: pure functions
become Lean functions, external library primitives (PBKDF2, Fernet,
SHA-256, the web3 node, the pinning contract) become explicit parameters
or per-call environment values, and exception-raising code returns
`Except String` values.  Bytes are modelled as `List Nat`, Python floats
as `Rat` (Python `int(x)` truncation of a nonnegative value is `Int.floor`),
and the Tk string variables read by the GUI as explicit inputs.
-/

/-- External cryptographic primitives used by `encryption.py`.
`kdf` models `base64.urlsafe_b64encode(PBKDF2HMAC(SHA256, 32, salt,
iterations).derive(password))` — deterministic in (iterations, password,
salt).  `fernetEncrypt`/`fernetDecrypt` model `cryptography.fernet.Fernet`:
decryption returns `none` when the token fails authentication
(`InvalidToken`).  `sha256` models `hashlib.sha256(...).digest()` as a list
of bytes. -/
structure CryptoPrims where
  kdf : Nat → String → List Nat → List Nat
  fernetEncrypt : List Nat → List Nat → List Nat
  fernetDecrypt : List Nat → List Nat → Option (List Nat)
  sha256 : List Nat → List Nat

/-- Lowercase hexadecimal digit for a nibble, as CPython's `hexdigest`
produces (digits then lowercase a–f). -/
def nibbleChar (n : Nat) : Char :=
  if n < 10 then Char.ofNat (48 + n) else Char.ofNat (87 + n)

/-- Hex encoding of a byte string, lowercase — models
`hashlib.sha256(data).hexdigest()`'s formatting of the digest bytes. -/
def bytesToHex (bs : List Nat) : String :=
  String.mk (bs.foldr (fun b acc => nibbleChar (b / 16 % 16) :: nibbleChar (b % 16) :: acc) [])

/-- `hashlib.sha256(data).hexdigest()` — the digest primitive followed by
lowercase hex formatting. -/
def hexdigest (S : CryptoPrims) (data : List Nat) : String :=
  bytesToHex (S.sha256 data)

/-- `EncryptumCrypto.generate_key_from_password` (encryption.py:21–42) with
the salt supplied by the caller (the `salt is None` branch draws
`os.urandom(16)`, modelled by the caller passing the drawn salt). -/
def generate_key_from_password (S : CryptoPrims) (iterations : Nat)
    (password : String) (salt : List Nat) : List Nat × List Nat :=
  (S.kdf iterations password salt, salt)

/-- The dictionary returned by `EncryptumCrypto.encrypt_file`
(encryption.py:78–85). -/
structure EncryptResult where
  encrypted_data : List Nat
  salt : List Nat
  original_hash : String
  original_name : String
  original_size : Nat
  encrypted_size : Nat
deriving DecidableEq, Repr

/-- `EncryptumCrypto.encrypt_file` (encryption.py:44–89), with the file's
bytes and basename read from disk passed in directly and the randomly drawn
salt passed as a parameter.  An empty file raises
`ValueError("Cannot encrypt empty file")`, re-raised as a generic
exception; this is the `.error` case. -/
def encrypt_file (S : CryptoPrims) (iterations : Nat) (file_data : List Nat)
    (name : String) (password : String) (salt : List Nat) :
    Except String EncryptResult :=
  if file_data.length = 0 then
    .error "Encryption failed: Cannot encrypt empty file"
  else
    let key := (generate_key_from_password S iterations password salt).1
    let encrypted_data := S.fernetEncrypt key file_data
    let file_hash := hexdigest S file_data
    .ok { encrypted_data := encrypted_data
          salt := salt
          original_hash := file_hash
          original_name := name
          original_size := file_data.length
          encrypted_size := encrypted_data.length }

/-- `EncryptumCrypto.decrypt_file` (encryption.py:91–113): derive the key
from (password, salt), call `Fernet.decrypt`; any failure (authentication
failure raises `InvalidToken`) is caught and re-raised as
`Exception("Decryption failed: ...")` — the `.error` case.  It never
returns bytes the primitive did not authenticate. -/
def decrypt_file (S : CryptoPrims) (iterations : Nat) (encrypted_data : List Nat)
    (password : String) (salt : List Nat) : Except String (List Nat) :=
  let key := (generate_key_from_password S iterations password salt).1
  match S.fernetDecrypt key encrypted_data with
  | some d => .ok d
  | none => .error "Decryption failed"

/-- `EncryptumCrypto.verify_file_integrity` (encryption.py:115–127):
recompute the hex digest and compare with `==` — exact, case-sensitive
string equality. -/
def verify_file_integrity (S : CryptoPrims) (decrypted_data : List Nat)
    (original_hash : String) : Bool :=
  hexdigest S decrypted_data == original_hash

/-- Flip the single bit `i % 8` of byte `i / 8` of a byte string (used to
state the tamper-detection property). -/
def flipBit (bs : List Nat) (i : Nat) : List Nat :=
  bs.set (i / 8) (bs.getD (i / 8) 0 ^^^ 2 ^ (i % 8))

/-- A small concrete instantiation of the primitives used to witness the
crypto theorems: the "ciphertext" is the message followed by a key-dependent
checksum byte, so any single-bit flip and any wrong key of a different
checksum are rejected, and the digest is a single byte with hex letters. -/
def demoPrims : CryptoPrims where
  kdf := fun it pw salt => [(it + pw.length + salt.length) % 251]
  fernetEncrypt := fun k m =>
    m ++ [(m.foldl (· + ·) 0 + k.foldl (· + ·) 0) % 256]
  fernetDecrypt := fun k c =>
    if c.length = 0 then none
    else
      let m := c.dropLast
      if c.getLast? = some ((m.foldl (· + ·) 0 + k.foldl (· + ·) 0) % 256) then
        some m
      else none
  sha256 := fun bs => [(bs.foldl (· + ·) 0 + 171) % 256]

/-! ## Gas configuration and gas price resolution (config.py, gui_app_blockchain.py:725–753) -/

/-- The gas-related fields of `EncryptumConfig` (config.py:54–67), with the
source's default values.  Python floats are modelled as rationals. -/
structure GasConfig where
  gas_limit_buffer : Rat := 12 / 10
  gas_price_buffer : Rat := 11 / 10
  min_gas_price_gwei : Rat := 1
  default_gas_limit : Nat := 500000
  max_gas_limit : Nat := 2000000

/-- The default configuration (`EncryptumConfig()` gas fields). -/
def defaultGasConfig : GasConfig := {}

/-- `w3.to_wei(g, 'gwei')` for a nonnegative numeric value: multiply by
10^9 and convert to an integer number of wei. -/
def to_wei_gwei (g : Rat) : Nat := (⌊g * 10 ^ 9⌋).toNat

/-- The parse of the string read from `self.gas_price_var`
(gui_app_blockchain.py:727–729): `auto` covers `'auto'` (case-insensitive)
and the empty string; `manual g` a string `float()` parses to `g`;
`invalid` any other string (where `float()` raises `ValueError`). -/
inductive GasPriceInput where
  | auto
  | manual (gwei : Rat)
  | invalid
deriving DecidableEq, Repr

/-- `BlockchainPanel.get_manual_gas_price` (gui_app_blockchain.py:725–753).
`nodeGasPrice` models `self.w3.eth.gas_price` in wei.  The `invalid`
branch is the source's `except ValueError` handler, which calls
`self.get_manual_gas_price()` again — re-reading the *same unchanged*
`gas_price_var` — so it is genuinely recursive; the recursion is made
explicit with `fuel`, and `none` means the call never returns (in CPython,
`RecursionError`). -/
def get_manual_gas_price (cfg : GasConfig) (nodeGasPrice : Nat)
    (input : GasPriceInput) : Nat → Option Nat
  | 0 => none
  | fuel + 1 =>
    match input with
    | .auto =>
      let buffered := (⌊(nodeGasPrice : Rat) * cfg.gas_price_buffer⌋).toNat
      let min_gas_wei := to_wei_gwei cfg.min_gas_price_gwei
      some (if buffered < min_gas_wei then min_gas_wei else buffered)
    | .manual g =>
      let g2 := if g < cfg.min_gas_price_gwei then cfg.min_gas_price_gwei else g
      some (to_wei_gwei g2)
    | .invalid => get_manual_gas_price cfg nodeGasPrice input fuel

/-! ## Per-file pinning (gui_app_blockchain.py:868–1034) -/

/-- A selected file as assembled by `on_file_selection_changed`
(gui_app_blockchain.py:1234–1240). -/
structure PinFile where
  file_id : String
  file_cid : String
  metadata_cid : String
  original_size : Nat
  original_name : String
deriving DecidableEq, Repr

/-- A transaction receipt (`wait_for_transaction_receipt` result): its
`status` field and `gasUsed`. -/
structure Receipt where
  status : Nat
  gasUsed : Nat
deriving DecidableEq, Repr

/-- The results of the external calls made while processing one file of
the batch loop (gui_app_blockchain.py:880–1002); `.error` models the call
raising an exception.  `now` models `datetime.now().isoformat()`. -/
structure FileEnv where
  costWei : Except String Nat
  nonce : Except String Nat
  gasPriceWei : Except String Nat
  estimateGas : Except String Nat
  sendTx : Except String String
  receipt : Except String Receipt
  now : String
deriving Repr

/-- The `pin_info` dictionary passed to the registry callback on a
confirmed pin (gui_app_blockchain.py:991–999); `blockchain_pinned: True`
is implicit in the record update it triggers. -/
structure PinInfo where
  pin_tx : String
  pin_date : String
  pin_duration_days : Nat
  pin_network : String
  pin_gas_used : Nat
  pin_gas_price_gwei : Rat
deriving DecidableEq, Repr

/-- The gas limit computation (gui_app_blockchain.py:902–926): on a
successful estimate, `int(estimated_gas * config.gas_limit_buffer)` capped
at `config.max_gas_limit`; when `estimate_gas` raises, the `except` handler
uses `config.default_gas_limit` and the loop body continues. -/
def resolveGasLimit (cfg : GasConfig) (est : Except String Nat) : Nat :=
  match est with
  | .ok estimated_gas =>
    let gas_limit := (⌊(estimated_gas : Rat) * cfg.gas_limit_buffer⌋).toNat
    if gas_limit > cfg.max_gas_limit then cfg.max_gas_limit else gas_limit
  | .error _ => cfg.default_gas_limit

/-- Outcome of one iteration of the batch loop: `failed` is the
`except Exception` path (any step raised), `confirmed` the
`receipt['status'] == 1` path (carrying the gas limit used, the transaction
hash, and the registry callback's update), `reverted` the
`receipt['status'] != 1` path (counted failed, no registry update). -/
inductive FileResult where
  | failed (msg : String)
  | confirmed (gasLimit : Nat) (txHash : String) (upd : String × PinInfo)
  | reverted (gasLimit : Nat)
deriving DecidableEq, Repr

/-- One iteration of the `for i, file in enumerate(self.selected_files)`
loop (gui_app_blockchain.py:880–1019): quote this file's cost, fetch the
nonce, resolve the gas price, resolve the gas limit (estimation failure is
non-fatal), build/sign/send the transaction, wait for the receipt, and
classify.  Any raising step short-circuits to `failed`. -/
def processFile (cfg : GasConfig) (durationDays : Nat) (network : String)
    (f : PinFile) (env : FileEnv) : FileResult :=
  match env.costWei with
  | .error e => .failed e
  | .ok _cost =>
  match env.nonce with
  | .error e => .failed e
  | .ok _nonce =>
  match env.gasPriceWei with
  | .error e => .failed e
  | .ok gasPrice =>
  let gas_limit := resolveGasLimit cfg env.estimateGas
  match env.sendTx with
  | .error e => .failed e
  | .ok txHash =>
  match env.receipt with
  | .error e => .failed e
  | .ok receipt =>
  if receipt.status = 1 then
    .confirmed gas_limit txHash
      (f.file_id,
       { pin_tx := txHash
         pin_date := env.now
         pin_duration_days := durationDays
         pin_network := network
         pin_gas_used := receipt.gasUsed
         pin_gas_price_gwei := (gasPrice : Rat) / 10 ^ 9 })
  else
    .reverted gas_limit

/-- Aggregate state of the batch loop: the `successful`/`failed` counters,
the files processed so far in order, and the registry-callback updates
issued so far in order. -/
structure BatchOutcome where
  successful : Nat
  failed : Nat
  processed : List String
  updates : List (String × PinInfo)
deriving DecidableEq, Repr

/-- Effect of one loop iteration on the counters, trace and updates
(gui_app_blockchain.py:982–1019). -/
def pinStep (cfg : GasConfig) (durationDays : Nat) (network : String)
    (acc : BatchOutcome) (x : PinFile × FileEnv) : BatchOutcome :=
  match processFile cfg durationDays network x.1 x.2 with
  | .failed _ =>
    { acc with failed := acc.failed + 1, processed := acc.processed ++ [x.1.file_id] }
  | .confirmed _ _ upd =>
    { acc with successful := acc.successful + 1
               processed := acc.processed ++ [x.1.file_id]
               updates := acc.updates ++ [upd] }
  | .reverted _ =>
    { acc with failed := acc.failed + 1, processed := acc.processed ++ [x.1.file_id] }

/-- The batch loop of `execute_pinning`'s `pin_thread`
(gui_app_blockchain.py:872–1026): sequential, in selection order, one
file's failure never aborting the rest. -/
def pinLoop (cfg : GasConfig) (durationDays : Nat) (network : String) :
    List (PinFile × FileEnv) → BatchOutcome → BatchOutcome
  | [], acc => acc
  | x :: xs, acc => pinLoop cfg durationDays network xs (pinStep cfg durationDays network acc x)

/-- `BlockchainPanel.execute_pinning` (gui_app_blockchain.py:868–1034),
with each file paired with the results of its external calls. -/
def execute_pinning (cfg : GasConfig) (durationDays : Nat) (network : String)
    (files : List (PinFile × FileEnv)) : BatchOutcome :=
  pinLoop cfg durationDays network files ⟨0, 0, [], []⟩

/-! ## Pre-flight balance check (gui_app_blockchain.py:811–866) -/

/-- Result of `BlockchainPanel.pin_files`: the early returns (no
selection, cost-estimation failure, insufficient balance, user declined
the confirmation dialog) or the launched batch run.  Only the `executed`
constructor runs `execute_pinning`, i.e. builds or submits transactions. -/
inductive PinRunResult where
  | noFiles
  | quoteError (msg : String)
  | insufficientBalance
  | cancelled
  | executed (outcome : BatchOutcome)
deriving DecidableEq, Repr

/-- `BlockchainPanel.pin_files` (gui_app_blockchain.py:811–866).
`balanceWei` models `w3.eth.get_balance(account)`; `costWeiRes` the
`calculatePinCost(total_size, duration_seconds)` contract call (which can
raise); the gas price is resolved through `get_manual_gas_price` (so an
invalid manual input makes the whole call diverge — the outer `none`).
`confirm` models the `askyesno` dialog answer.  The pre-flight gas
estimate is the flat 350000 units per file of the source. -/
def pin_files (cfg : GasConfig) (durationDays : Nat) (network : String)
    (selected : List (PinFile × FileEnv)) (balanceWei : Nat)
    (costWeiRes : Except String Nat) (nodeGasPrice : Nat)
    (gasInput : GasPriceInput) (fuel : Nat) (confirm : Bool) :
    Option PinRunResult :=
  if selected.length = 0 then some .noFiles
  else
    let balance_eth : Rat := (balanceWei : Rat) / 10 ^ 18
    match costWeiRes with
    | .error e => some (.quoteError e)
    | .ok cost_wei =>
      match get_manual_gas_price cfg nodeGasPrice gasInput fuel with
      | none => none
      | some gas_price_wei =>
        let cost_eth : Rat := (cost_wei : Rat) / 10 ^ 18
        let total_gas := 350000 * selected.length
        let gas_cost_eth : Rat := ((total_gas * gas_price_wei : Nat) : Rat) / 10 ^ 18
        let total_cost := cost_eth + gas_cost_eth
        if balance_eth < total_cost * (11 / 10) then
          some .insufficientBalance
        else if !confirm then
          some .cancelled
        else
          some (.executed (execute_pinning cfg durationDays network selected))

/-- The registry updates a `pin_files` run performed: only an `executed`
run carries any. -/
def runUpdates : Option PinRunResult → List (String × PinInfo)
  | some (.executed o) => o.updates
  | _ => []

/-! ## File registry (gui_app_blockchain.py:1246–1252, 1330–1372, 1497–1526) -/

/-- A registry entry (the dictionary stored at
`self.file_registry[file_id]`, gui_app_blockchain.py:1356–1363 plus the
pin fields merged in on confirmation).  Fields absent from a fresh upload
are `Option.none`. -/
structure FileRecord where
  file_cid : String
  metadata_cid : String
  original_name : String
  original_size : Nat
  upload_date : String
  file_hash : String
  blockchain_pinned : Bool
  pin_tx : Option String
  pin_date : Option String
  pin_duration_days : Option Nat
  pin_network : Option String
  pin_gas_used : Option Nat
  pin_gas_price_gwei : Option Rat
deriving DecidableEq, Repr

/-- The registry: `self.file_registry`, a dict keyed by file id, modelled
as an association list with the dict's insertion-order semantics. -/
def Registry := List (String × FileRecord)

/-- Python dict assignment `d[k] = v`: replace the value in place when the
key is present, append otherwise. -/
def dictInsert (reg : List (String × FileRecord)) (k : String) (v : FileRecord) :
    List (String × FileRecord) :=
  if (reg.lookup k).isSome then
    reg.map (fun kv => if kv.1 = k then (kv.1, v) else kv)
  else
    reg ++ [(k, v)]

/-- The result of `ipfs.store_encrypted_file` consumed by the upload
(ipfs_handler.py:56–120): the two content identifiers. -/
structure IpfsResult where
  file_cid : String
  metadata_cid : String
deriving DecidableEq, Repr

/-- The fresh registry entry built by `upload_file_thread`
(gui_app_blockchain.py:1356–1363): `blockchain_pinned` is `False` and no
pin fields are present. -/
def mkUploadRecord (ipfs : IpfsResult) (enc : EncryptResult) (uploadDate : String) :
    FileRecord :=
  { file_cid := ipfs.file_cid
    metadata_cid := ipfs.metadata_cid
    original_name := enc.original_name
    original_size := enc.original_size
    upload_date := uploadDate
    file_hash := enc.original_hash
    blockchain_pinned := false
    pin_tx := none
    pin_date := none
    pin_duration_days := none
    pin_network := none
    pin_gas_used := none
    pin_gas_price_gwei := none }

/-- The registry mutation of `upload_file_thread`
(gui_app_blockchain.py:1354–1363): `file_id` is the 16-character prefix of
the plaintext hash and the entry is written with plain dict assignment.
Returns the new registry and the file id used. -/
def upload_register (reg : List (String × FileRecord)) (enc : EncryptResult)
    (ipfs : IpfsResult) (uploadDate : String) :
    List (String × FileRecord) × String :=
  let file_id := enc.original_hash.take 16
  (dictInsert reg file_id (mkUploadRecord ipfs enc uploadDate), file_id)

/-- Merging the confirmation callback's `pin_info` into an existing record
(`self.file_registry[file_id].update(pin_info)` with the dictionary of
gui_app_blockchain.py:991–999). -/
def applyPinInfo (r : FileRecord) (p : PinInfo) : FileRecord :=
  { r with blockchain_pinned := true
           pin_tx := some p.pin_tx
           pin_date := some p.pin_date
           pin_duration_days := some p.pin_duration_days
           pin_network := some p.pin_network
           pin_gas_used := some p.pin_gas_used
           pin_gas_price_gwei := some p.pin_gas_price_gwei }

/-- `EncryptumGUI.update_file_pinning_status` (gui_app_blockchain.py:1246–1252):
merge the pin fields into the record if the id is present, do nothing
otherwise. -/
def update_file_pinning_status (reg : List (String × FileRecord))
    (file_id : String) (p : PinInfo) : List (String × FileRecord) :=
  if (reg.lookup file_id).isSome then
    reg.map (fun kv => if kv.1 = file_id then (kv.1, applyPinInfo kv.2 p) else kv)
  else
    reg

/-- The registry mutation of `EncryptumGUI.delete_file` for one selected id
(gui_app_blockchain.py:1511–1521): a pinned record is deleted only when the
user confirms (`confirmPinned`); an unpinned record is deleted outright;
a missing id leaves the registry unchanged. -/
def delete_file_registry (reg : List (String × FileRecord)) (file_id : String)
    (confirmPinned : Bool) : List (String × FileRecord) :=
  match reg.lookup file_id with
  | none => reg
  | some r =>
    if r.blockchain_pinned && !confirmPinned then reg
    else reg.filter (fun kv => kv.1 ≠ file_id)

/-- The three registry mutations of the application: record creation on
upload, pin-status update on transaction confirmation, and deletion. -/
inductive RegMutation where
  | create (enc : EncryptResult) (ipfs : IpfsResult) (uploadDate : String)
  | pinUpdate (file_id : String) (p : PinInfo)
  | delete (file_id : String) (confirmPinned : Bool)

/-- Apply a registry mutation. -/
def applyMutation (m : RegMutation) (reg : List (String × FileRecord)) :
    List (String × FileRecord) :=
  match m with
  | .create enc ipfs d => (upload_register reg enc ipfs d).1
  | .pinUpdate fid p => update_file_pinning_status reg fid p
  | .delete fid c => delete_file_registry reg fid c

/-- The spec's registry invariant: a record marked `blockchain_pinned`
has its `pin_tx` set. -/
def RegInv (reg : List (String × FileRecord)) : Prop :=
  ∀ kv ∈ reg, kv.2.blockchain_pinned = true → kv.2.pin_tx.isSome

/-! ## Theorems -/

/-- C1: for every non-empty plaintext P and every password W, decrypting
the ciphertext produced by `encrypt_file(P, W)` with the same password W
and the salt returned by that same encrypt call yields exactly P.  The
hypothesis `hfernet` is the Fernet library's round-trip contract at the
derived key. -/
theorem encrypt_decrypt_roundtrip (S : CryptoPrims) (it : Nat) (P : List Nat)
    (name pw : String) (salt : List Nat)
    (hP : P ≠ [])
    (hfernet : S.fernetDecrypt (S.kdf it pw salt)
      (S.fernetEncrypt (S.kdf it pw salt) P) = some P) :
    ∃ r, encrypt_file S it P name pw salt = .ok r ∧ r.salt = salt ∧
      decrypt_file S it r.encrypted_data pw r.salt = .ok P := by
  have hlen : ¬ P.length = 0 := by simpa [List.length_eq_zero] using hP
  refine ⟨{ encrypted_data := S.fernetEncrypt (S.kdf it pw salt) P
            salt := salt
            original_hash := hexdigest S P
            original_name := name
            original_size := P.length
            encrypted_size := (S.fernetEncrypt (S.kdf it pw salt) P).length },
          ?_, rfl, ?_⟩
  · unfold encrypt_file generate_key_from_password
    rw [if_neg hlen]
  · unfold decrypt_file generate_key_from_password
    simp [hfernet]

/-- Witness for C1 at a concrete instantiation of the primitives. -/
theorem encrypt_decrypt_roundtrip_w :
    ([1, 2, 3] ≠ ([] : List Nat)) ∧
    (demoPrims.fernetDecrypt (demoPrims.kdf 1 "pw" [0, 0])
      (demoPrims.fernetEncrypt (demoPrims.kdf 1 "pw" [0, 0]) [1, 2, 3]) = some [1, 2, 3]) ∧
    ∃ r, encrypt_file demoPrims 1 [1, 2, 3] "f" "pw" [0, 0] = .ok r ∧ r.salt = [0, 0] ∧
      decrypt_file demoPrims 1 r.encrypted_data "pw" r.salt = .ok [1, 2, 3] :=
  ⟨by decide, by decide,
   encrypt_decrypt_roundtrip demoPrims 1 [1, 2, 3] "f" "pw" [0, 0] (by decide) (by decide)⟩

/-- C2: when the authenticated-encryption primitive rejects a
single-bit-flipped ciphertext (or a ciphertext decrypted under the key of a
wrong password) — which is Fernet's HMAC contract — `decrypt_file` fails
with the decryption-failed error; and whatever it returns with `.ok` is
exactly what the primitive authenticated, so corrupted plaintext is never
returned silently. -/
theorem decrypt_rejects_tampering (S : CryptoPrims) (it : Nat) (pw pw2 : String)
    (salt m : List Nat) (i : Nat) :
    (S.fernetDecrypt (S.kdf it pw salt)
        (flipBit (S.fernetEncrypt (S.kdf it pw salt) m) i) = none →
      decrypt_file S it (flipBit (S.fernetEncrypt (S.kdf it pw salt) m) i) pw salt =
        .error "Decryption failed") ∧
    (S.fernetDecrypt (S.kdf it pw2 salt) (S.fernetEncrypt (S.kdf it pw salt) m) = none →
      decrypt_file S it (S.fernetEncrypt (S.kdf it pw salt) m) pw2 salt =
        .error "Decryption failed") ∧
    (∀ d, decrypt_file S it (flipBit (S.fernetEncrypt (S.kdf it pw salt) m) i) pw salt =
        .ok d →
      S.fernetDecrypt (S.kdf it pw salt)
        (flipBit (S.fernetEncrypt (S.kdf it pw salt) m) i) = some d) := by
  refine ⟨fun h => ?_, fun h => ?_, fun d h => ?_⟩
  · unfold decrypt_file generate_key_from_password
    simp [h]
  · unfold decrypt_file generate_key_from_password
    simp [h]
  · unfold decrypt_file generate_key_from_password at h
    cases hx : S.fernetDecrypt (S.kdf it pw salt)
        (flipBit (S.fernetEncrypt (S.kdf it pw salt) m) i) with
    | none => simp [hx] at h
    | some d2 =>
      simp only [hx, Except.ok.injEq] at h
      rw [h]

/-- Witness for C2: with the concrete checksum primitives, a bit flip in
the ciphertext and a wrong password are both rejected by `decrypt_file`. -/
theorem decrypt_rejects_tampering_w :
    (demoPrims.fernetDecrypt (demoPrims.kdf 1 "pw" [0, 0])
        (flipBit (demoPrims.fernetEncrypt (demoPrims.kdf 1 "pw" [0, 0]) [1, 2, 3]) 0) = none) ∧
    decrypt_file demoPrims 1
      (flipBit (demoPrims.fernetEncrypt (demoPrims.kdf 1 "pw" [0, 0]) [1, 2, 3]) 0)
      "pw" [0, 0] = .error "Decryption failed" ∧
    decrypt_file demoPrims 1
      (demoPrims.fernetEncrypt (demoPrims.kdf 1 "pw" [0, 0]) [1, 2, 3])
      "x" [0, 0] = .error "Decryption failed" :=
  ⟨by decide,
   (decrypt_rejects_tampering demoPrims 1 "pw" "x" [0, 0] [1, 2, 3] 0).1 (by decide),
   (decrypt_rejects_tampering demoPrims 1 "pw" "x" [0, 0] [1, 2, 3] 0).2.1 (by decide)⟩

/-- Uppercase hexadecimal digit for a nibble (digits then A–F). -/
def nibbleCharUpper (n : Nat) : Char :=
  if n < 10 then Char.ofNat (48 + n) else Char.ofNat (55 + n)

/-- Uppercase hex encoding of a byte string — the same hash value as
`bytesToHex`, written with capital letters. -/
def bytesToHexUpper (bs : List Nat) : String :=
  String.mk (bs.foldr (fun b acc => nibbleCharUpper (b / 16 % 16) :: nibbleCharUpper (b % 16) :: acc) [])

/-- C10: `verify_file_integrity` compares the recomputed digest by exact,
case-sensitive string equality: it accepts the (lowercase) hex digest of
the data, rejects every expected string that is not character-for-character
equal, and in particular rejects the uppercase hex encoding of the very
same digest whenever the two spellings differ (i.e. whenever the digest
contains a letter). -/
theorem verify_integrity_case_sensitive (S : CryptoPrims) (P : List Nat) :
    verify_file_integrity S P (hexdigest S P) = true ∧
    (∀ expected, expected ≠ hexdigest S P → verify_file_integrity S P expected = false) ∧
    (bytesToHexUpper (S.sha256 P) ≠ hexdigest S P →
      verify_file_integrity S P (bytesToHexUpper (S.sha256 P)) = false) := by
  refine ⟨by simp [verify_file_integrity], fun expected h => ?_, fun h => ?_⟩
  · simp only [verify_file_integrity, beq_eq_false_iff_ne, ne_eq]
    exact fun e => h e.symm
  · simp only [verify_file_integrity, beq_eq_false_iff_ne, ne_eq]
    exact fun e => h e.symm

/-- Witness for C10: a digest whose hex encoding contains letters is
rejected when presented in uppercase. -/
theorem verify_integrity_case_sensitive_w :
    (bytesToHexUpper (demoPrims.sha256 []) ≠ hexdigest demoPrims []) ∧
    verify_file_integrity demoPrims [] (bytesToHexUpper (demoPrims.sha256 [])) = false :=
  ⟨by decide, (verify_integrity_case_sensitive demoPrims []).2.2 (by decide)⟩

/-- Unfolding of `get_manual_gas_price` in automatic mode with at least
one unit of fuel. -/
theorem get_manual_gas_price_auto (cfg : GasConfig) (node fuel : Nat) :
    get_manual_gas_price cfg node .auto (fuel + 1) =
      some (if (⌊(node : Rat) * cfg.gas_price_buffer⌋).toNat <
              to_wei_gwei cfg.min_gas_price_gwei
            then to_wei_gwei cfg.min_gas_price_gwei
            else (⌊(node : Rat) * cfg.gas_price_buffer⌋).toNat) := rfl

/-- Unfolding of `get_manual_gas_price` in manual mode with at least one
unit of fuel. -/
theorem get_manual_gas_price_manual (cfg : GasConfig) (node fuel : Nat) (g : Rat) :
    get_manual_gas_price cfg node (.manual g) (fuel + 1) =
      some (to_wei_gwei (if g < cfg.min_gas_price_gwei then cfg.min_gas_price_gwei else g)) :=
  rfl

/-- C5: gas price resolution.  In automatic mode the resolved price is the
node price times the configured buffer (so at least the node price when the
buffer is ≥ 1, as the default 1.1 is), clamped up to the configured
minimum when the buffered value falls below it; a parsable manual price
below the configured minimum resolves to exactly the configured minimum. -/
theorem gas_price_resolution (cfg : GasConfig) (node : Nat) (g : Rat) (fuel : Nat)
    (hbuf : 1 ≤ cfg.gas_price_buffer) :
    (∃ r, get_manual_gas_price cfg node .auto (fuel + 1) = some r ∧ node ≤ r) ∧
    ((⌊(node : Rat) * cfg.gas_price_buffer⌋).toNat < to_wei_gwei cfg.min_gas_price_gwei →
      get_manual_gas_price cfg node .auto (fuel + 1) =
        some (to_wei_gwei cfg.min_gas_price_gwei)) ∧
    (to_wei_gwei cfg.min_gas_price_gwei ≤ (⌊(node : Rat) * cfg.gas_price_buffer⌋).toNat →
      get_manual_gas_price cfg node .auto (fuel + 1) =
        some ((⌊(node : Rat) * cfg.gas_price_buffer⌋).toNat)) ∧
    (g < cfg.min_gas_price_gwei →
      get_manual_gas_price cfg node (.manual g) (fuel + 1) =
        some (to_wei_gwei cfg.min_gas_price_gwei)) := by
  have h0 : (0 : Rat) ≤ (node : Rat) := by positivity
  have hfloor : (node : Int) ≤ ⌊(node : Rat) * cfg.gas_price_buffer⌋ := by
    rw [Int.le_floor]
    push_cast
    nlinarith [mul_le_mul_of_nonneg_left hbuf h0]
  have hnode : node ≤ (⌊(node : Rat) * cfg.gas_price_buffer⌋).toNat := by omega
  refine ⟨⟨_, get_manual_gas_price_auto cfg node fuel, ?_⟩, fun h => ?_, fun h => ?_,
    fun h => ?_⟩
  · split
    · omega
    · exact hnode
  · rw [get_manual_gas_price_auto, if_pos h]
  · rw [get_manual_gas_price_auto, if_neg (by omega)]
  · rw [get_manual_gas_price_manual, if_pos h]

/-- Witness for C5 at the default configuration: a 2 Gwei node price is
buffered above the minimum, a zero node price is clamped up to the 1 Gwei
minimum, and a 0.5 Gwei manual price is clamped up to the 1 Gwei
minimum. -/
theorem gas_price_resolution_w :
    (1 ≤ defaultGasConfig.gas_price_buffer) ∧
    (to_wei_gwei defaultGasConfig.min_gas_price_gwei ≤
      (⌊((2000000000 : Nat) : Rat) * defaultGasConfig.gas_price_buffer⌋).toNat) ∧
    get_manual_gas_price defaultGasConfig 2000000000 .auto 1 =
      some ((⌊((2000000000 : Nat) : Rat) * defaultGasConfig.gas_price_buffer⌋).toNat) ∧
    ((⌊((0 : Nat) : Rat) * defaultGasConfig.gas_price_buffer⌋).toNat <
      to_wei_gwei defaultGasConfig.min_gas_price_gwei) ∧
    get_manual_gas_price defaultGasConfig 0 .auto 1 =
      some (to_wei_gwei defaultGasConfig.min_gas_price_gwei) ∧
    ((1 / 2 : Rat) < defaultGasConfig.min_gas_price_gwei) ∧
    get_manual_gas_price defaultGasConfig 0 (.manual (1 / 2)) 1 =
      some (to_wei_gwei defaultGasConfig.min_gas_price_gwei) :=
  ⟨by norm_num [defaultGasConfig],
   by norm_num [to_wei_gwei, defaultGasConfig, Int.toNat_ofNat],
   (gas_price_resolution defaultGasConfig 2000000000 (1 / 2) 0
      (by norm_num [defaultGasConfig])).2.2.1
     (by norm_num [to_wei_gwei, defaultGasConfig, Int.toNat_ofNat]),
   by norm_num [to_wei_gwei, defaultGasConfig, Int.toNat_ofNat],
   (gas_price_resolution defaultGasConfig 0 (1 / 2) 0
      (by norm_num [defaultGasConfig])).2.1
     (by norm_num [to_wei_gwei, defaultGasConfig, Int.toNat_ofNat]),
   by norm_num [defaultGasConfig],
   (gas_price_resolution defaultGasConfig 0 (1 / 2) 0
      (by norm_num [defaultGasConfig])).2.2.2
     (by norm_num [defaultGasConfig])⟩

/-- C6: the claim says the fallback on unparsable manual input is bounded
(exactly one fallback into automatic resolution, then termination).  In the
source the fallback re-invokes `get_manual_gas_price`, which re-reads the
*same unchanged* invalid `gas_price_var`, so it recurses without bound: for
every amount of fuel the call fails to return a value. -/
theorem invalid_gas_price_diverges (cfg : GasConfig) (node : Nat) :
    ∀ fuel, get_manual_gas_price cfg node .invalid fuel = none := by
  intro fuel
  induction fuel with
  | zero => rfl
  | succ n ih => simpa only [get_manual_gas_price] using ih

/-- C7: per file, when gas estimation succeeds the transaction's gas limit
is the estimated gas times the configured buffer capped at the configured
maximum; when estimation fails the configured default gas limit is used
and processing of the file continues (here: all the way to a confirmed
transaction) instead of aborting. -/
theorem gas_limit_resolution (cfg : GasConfig) (durationDays : Nat) (network : String)
    (f : PinFile) (est : Nat) (e : String) (cost nonce gp gasUsed : Nat)
    (tx now : String) :
    resolveGasLimit cfg (.ok est) =
      min cfg.max_gas_limit ((⌊(est : Rat) * cfg.gas_limit_buffer⌋).toNat) ∧
    resolveGasLimit cfg (.error e) = cfg.default_gas_limit ∧
    processFile cfg durationDays network f
      ⟨.ok cost, .ok nonce, .ok gp, .error e, .ok tx, .ok ⟨1, gasUsed⟩, now⟩ =
      .confirmed cfg.default_gas_limit tx
        (f.file_id,
         { pin_tx := tx
           pin_date := now
           pin_duration_days := durationDays
           pin_network := network
           pin_gas_used := gasUsed
           pin_gas_price_gwei := (gp : Rat) / 10 ^ 9 }) := by
  refine ⟨?_, rfl, ?_⟩
  · simp only [resolveGasLimit, Nat.min_def]
    split_ifs <;> omega
  · simp [processFile, resolveGasLimit]

/-- Whether processing this file raised an exception (the batch loop's
`except` path). -/
def isFailedRun (cfg : GasConfig) (dur : Nat) (net : String)
    (x : PinFile × FileEnv) : Bool :=
  match processFile cfg dur net x.1 x.2 with
  | .failed _ => true
  | _ => false

/-- Whether processing this file reached a confirmed receipt. -/
def isConfirmedRun (cfg : GasConfig) (dur : Nat) (net : String)
    (x : PinFile × FileEnv) : Bool :=
  match processFile cfg dur net x.1 x.2 with
  | .confirmed _ _ _ => true
  | _ => false

/-- The registry-callback update this file's processing issues, if any. -/
def updateOf (cfg : GasConfig) (dur : Nat) (net : String)
    (x : PinFile × FileEnv) : Option (String × PinInfo) :=
  match processFile cfg dur net x.1 x.2 with
  | .confirmed _ _ u => some u
  | _ => none

theorem pinStep_processed (cfg : GasConfig) (dur : Nat) (net : String)
    (acc : BatchOutcome) (x : PinFile × FileEnv) :
    (pinStep cfg dur net acc x).processed = acc.processed ++ [x.1.file_id] := by
  unfold pinStep
  cases processFile cfg dur net x.1 x.2 <;> rfl

theorem pinStep_successful (cfg : GasConfig) (dur : Nat) (net : String)
    (acc : BatchOutcome) (x : PinFile × FileEnv) :
    (pinStep cfg dur net acc x).successful =
      acc.successful + (if isConfirmedRun cfg dur net x then 1 else 0) := by
  unfold pinStep isConfirmedRun
  cases processFile cfg dur net x.1 x.2 <;> simp

theorem pinStep_failed (cfg : GasConfig) (dur : Nat) (net : String)
    (acc : BatchOutcome) (x : PinFile × FileEnv) :
    (pinStep cfg dur net acc x).failed =
      acc.failed + (if isConfirmedRun cfg dur net x then 0 else 1) := by
  unfold pinStep isConfirmedRun
  cases processFile cfg dur net x.1 x.2 <;> simp

theorem pinStep_updates (cfg : GasConfig) (dur : Nat) (net : String)
    (acc : BatchOutcome) (x : PinFile × FileEnv) :
    (pinStep cfg dur net acc x).updates = acc.updates ++ (updateOf cfg dur net x).toList := by
  unfold pinStep updateOf
  cases processFile cfg dur net x.1 x.2 <;> simp

/-- Loop invariant of the batch loop: counters, processing trace and
updates relative to an arbitrary starting accumulator. -/
theorem pinLoop_spec (cfg : GasConfig) (dur : Nat) (net : String) :
    ∀ (fs : List (PinFile × FileEnv)) (acc : BatchOutcome),
      (pinLoop cfg dur net fs acc).successful =
        acc.successful + (fs.filter (isConfirmedRun cfg dur net)).length ∧
      (pinLoop cfg dur net fs acc).failed =
        acc.failed + (fs.filter (fun x => !isConfirmedRun cfg dur net x)).length ∧
      (pinLoop cfg dur net fs acc).processed =
        acc.processed ++ fs.map (fun x => x.1.file_id) ∧
      (pinLoop cfg dur net fs acc).updates =
        acc.updates ++ fs.filterMap (updateOf cfg dur net) := by
  intro fs
  induction fs with
  | nil => intro acc; simp [pinLoop]
  | cons x xs ih =>
    intro acc
    rcases ih (pinStep cfg dur net acc x) with ⟨h1, h2, h3, h4⟩
    refine ⟨?_, ?_, ?_, ?_⟩
    · rw [pinLoop, h1, pinStep_successful, List.filter_cons]
      by_cases hc : isConfirmedRun cfg dur net x <;> simp [hc] <;> omega
    · rw [pinLoop, h2, pinStep_failed, List.filter_cons]
      by_cases hc : isConfirmedRun cfg dur net x <;> simp [hc] <;> omega
    · rw [pinLoop, h3, pinStep_processed]
      simp
    · rw [pinLoop, h4, pinStep_updates, List.filterMap_cons]
      cases hu : updateOf cfg dur net x <;> simp [hu]

theorem length_filter_add_length_filter_not {α : Type} (p : α → Bool) (l : List α) :
    (l.filter p).length + (l.filter (fun x => !p x)).length = l.length := by
  induction l with
  | nil => rfl
  | cons x xs ih =>
    by_cases h : p x <;> simp [List.filter_cons, h] <;> omega

theorem not_conf_eq_failed_of (cfg : GasConfig) (dur : Nat) (net : String)
    (x : PinFile × FileEnv)
    (h : isFailedRun cfg dur net x = true ∨ isConfirmedRun cfg dur net x = true) :
    (!isConfirmedRun cfg dur net x) = isFailedRun cfg dur net x := by
  unfold isFailedRun isConfirmedRun at *
  cases hp : processFile cfg dur net x.1 x.2 <;> simp [hp] at h ⊢

/-- C3: for a batch of N selected files in which exactly M files raise
errors during submission and the rest reach confirmed receipts, the
pinning run processes all N files in the original selection order,
produces `successful = N - M` and `failed = M`, and issues a registry
pin-status update exactly for each successful file — no file's failure
aborts the rest of the batch. -/
theorem batch_partial_failure_accounting (cfg : GasConfig) (dur : Nat) (net : String)
    (files : List (PinFile × FileEnv))
    (h : ∀ x ∈ files, isFailedRun cfg dur net x = true ∨
      isConfirmedRun cfg dur net x = true) :
    (execute_pinning cfg dur net files).successful =
      files.length - (files.filter (isFailedRun cfg dur net)).length ∧
    (execute_pinning cfg dur net files).failed =
      (files.filter (isFailedRun cfg dur net)).length ∧
    (execute_pinning cfg dur net files).processed =
      files.map (fun x => x.1.file_id) ∧
    (execute_pinning cfg dur net files).updates =
      files.filterMap (updateOf cfg dur net) := by
  have hfe : files.filter (fun x => !isConfirmedRun cfg dur net x) =
      files.filter (isFailedRun cfg dur net) :=
    List.filter_congr (fun x hx => not_conf_eq_failed_of cfg dur net x (h x hx))
  rcases pinLoop_spec cfg dur net files ⟨0, 0, [], []⟩ with ⟨h1, h2, h3, h4⟩
  have hsum := length_filter_add_length_filter_not (isConfirmedRun cfg dur net) files
  unfold execute_pinning
  dsimp only at h1 h2 h3 h4
  refine ⟨?_, ?_, ?_, ?_⟩
  · rw [h1]; rw [hfe] at hsum; omega
  · rw [h2, hfe]; omega
  · rw [h3]; simp
  · rw [h4]; simp

/-- A concrete batch of three files for the C3 witness: file 2's
transaction submission raises, files 1 and 3 confirm (file 3 despite a
failed gas estimation). -/
def sampleBatch : List (PinFile × FileEnv) :=
  [(⟨"id1", "cid1", "mcid1", 10, "a"⟩,
    ⟨.ok 5, .ok 0, .ok 1000000000, .ok 21000, .ok "0xa1", .ok ⟨1, 20000⟩, "d1"⟩),
   (⟨"id2", "cid2", "mcid2", 20, "b"⟩,
    ⟨.ok 5, .ok 1, .ok 1000000000, .ok 21000, .error "insufficient funds",
     .error "e", "d2"⟩),
   (⟨"id3", "cid3", "mcid3", 30, "c"⟩,
    ⟨.ok 5, .ok 2, .ok 1000000000, .error "estimation failed", .ok "0xa3",
     .ok ⟨1, 30000⟩, "d3"⟩)]

/-- Witness for C3 on the concrete three-file batch (N = 3, M = 1). -/
theorem batch_partial_failure_accounting_w :
    (∀ x ∈ sampleBatch, isFailedRun defaultGasConfig 30 "sepolia" x = true ∨
      isConfirmedRun defaultGasConfig 30 "sepolia" x = true) ∧
    ((execute_pinning defaultGasConfig 30 "sepolia" sampleBatch).successful =
      sampleBatch.length -
        (sampleBatch.filter (isFailedRun defaultGasConfig 30 "sepolia")).length ∧
    (execute_pinning defaultGasConfig 30 "sepolia" sampleBatch).failed =
      (sampleBatch.filter (isFailedRun defaultGasConfig 30 "sepolia")).length ∧
    (execute_pinning defaultGasConfig 30 "sepolia" sampleBatch).processed =
      sampleBatch.map (fun x => x.1.file_id) ∧
    (execute_pinning defaultGasConfig 30 "sepolia" sampleBatch).updates =
      sampleBatch.filterMap (updateOf defaultGasConfig 30 "sepolia")) :=
  ⟨by decide,
   batch_partial_failure_accounting defaultGasConfig 30 "sepolia" sampleBatch (by decide)⟩

/-- C4: when the wallet balance is below 1.1 times the quoted total cost
(pin cost plus the flat pre-flight gas estimate), `pin_files` aborts with
the insufficient-balance error before `execute_pinning` runs: no
transaction is built or submitted and no registry update is issued. -/
theorem insufficient_balance_aborts (cfg : GasConfig) (dur : Nat) (net : String)
    (selected : List (PinFile × FileEnv)) (balanceWei cost node : Nat)
    (gasInput : GasPriceInput) (fuel : Nat) (confirm : Bool) (gp : Nat)
    (hne : ¬ selected.length = 0)
    (hgp : get_manual_gas_price cfg node gasInput fuel = some gp)
    (hbal : (balanceWei : Rat) / 10 ^ 18 <
      ((cost : Rat) / 10 ^ 18 +
        ((350000 * selected.length * gp : Nat) : Rat) / 10 ^ 18) * (11 / 10)) :
    pin_files cfg dur net selected balanceWei (.ok cost) node gasInput fuel confirm =
      some .insufficientBalance ∧
    runUpdates (pin_files cfg dur net selected balanceWei (.ok cost) node gasInput
      fuel confirm) = [] := by
  have hmain : pin_files cfg dur net selected balanceWei (.ok cost) node gasInput
      fuel confirm = some .insufficientBalance := by
    unfold pin_files
    rw [if_neg hne]
    simp only [hgp]
    rw [if_pos hbal]
  exact ⟨hmain, by rw [hmain]; rfl⟩

/-- Witness for C4: a zero balance against a 1 ETH pin quote aborts the
batch with no updates. -/
theorem insufficient_balance_aborts_w :
    (¬ sampleBatch.length = 0) ∧
    get_manual_gas_price defaultGasConfig 0 .auto 1 = some 1000000000 ∧
    (((0 : Nat) : Rat) / 10 ^ 18 <
      ((((10 ^ 18 : Nat)) : Rat) / 10 ^ 18 +
        ((350000 * sampleBatch.length * 1000000000 : Nat) : Rat) / 10 ^ 18) * (11 / 10)) ∧
    pin_files defaultGasConfig 30 "sepolia" sampleBatch 0 (.ok (10 ^ 18)) 0 .auto 1 true =
      some .insufficientBalance ∧
    runUpdates (pin_files defaultGasConfig 30 "sepolia" sampleBatch 0 (.ok (10 ^ 18)) 0
      .auto 1 true) = [] := by
  have hne : ¬ sampleBatch.length = 0 := by decide
  have hgp : get_manual_gas_price defaultGasConfig 0 .auto 1 = some 1000000000 := by
    rw [get_manual_gas_price_auto]
    norm_num [to_wei_gwei, defaultGasConfig, Int.toNat_ofNat]
    rfl
  have hbal : (((0 : Nat)) : Rat) / 10 ^ 18 <
      ((((10 ^ 18 : Nat)) : Rat) / 10 ^ 18 +
        ((350000 * sampleBatch.length * 1000000000 : Nat) : Rat) / 10 ^ 18) * (11 / 10) := by
    norm_num [sampleBatch]
  refine ⟨hne, hgp, hbal, ?_, ?_⟩
  · exact (insufficient_balance_aborts defaultGasConfig 30 "sepolia" sampleBatch 0
      (10 ^ 18) 0 .auto 1 true 1000000000 hne hgp hbal).1
  · exact (insufficient_balance_aborts defaultGasConfig 30 "sepolia" sampleBatch 0
      (10 ^ 18) 0 .auto 1 true 1000000000 hne hgp hbal).2

theorem lookup_append_of_none (reg l2 : List (String × FileRecord)) (k : String)
    (h : reg.lookup k = none) : (reg ++ l2).lookup k = l2.lookup k := by
  induction reg with
  | nil => simp
  | cons x xs ih =>
    obtain ⟨a, b⟩ := x
    simp only [List.lookup, List.cons_append] at h ⊢
    cases hab : (k == a) with
    | true => simp [hab] at h
    | false =>
      simp only [hab] at h ⊢
      exact ih h

theorem lookup_cons_self (a : String) (b : FileRecord) (xs : List (String × FileRecord)) :
    List.lookup a ((a, b) :: xs) = some b := by
  simp [List.lookup]

theorem lookup_cons_ne (a k : String) (b : FileRecord) (xs : List (String × FileRecord))
    (h : ¬ k = a) : List.lookup k ((a, b) :: xs) = List.lookup k xs := by
  have hb : (k == a) = false := beq_eq_false_iff_ne.mpr h
  simp [List.lookup, hb]

theorem lookup_map_replace (reg : List (String × FileRecord)) (k : String) (v : FileRecord)
    (h : (reg.lookup k).isSome) :
    (reg.map (fun kv => if kv.1 = k then (kv.1, v) else kv)).lookup k = some v := by
  induction reg with
  | nil => simp at h
  | cons x xs ih =>
    obtain ⟨a, b⟩ := x
    rw [List.map_cons]
    by_cases hak : a = k
    · subst hak
      rw [if_pos rfl]
      exact lookup_cons_self a v _
    · have hka : ¬ k = a := fun e => hak e.symm
      rw [if_neg hak, lookup_cons_ne a k b _ hka]
      rw [lookup_cons_ne a k b xs hka] at h
      exact ih h

theorem lookup_dictInsert (reg : List (String × FileRecord)) (k : String) (v : FileRecord) :
    (dictInsert reg k v).lookup k = some v := by
  unfold dictInsert
  by_cases h : (reg.lookup k).isSome
  · rw [if_pos h]
    exact lookup_map_replace reg k v h
  · rw [if_neg h]
    have hn : reg.lookup k = none := by
      cases hx : reg.lookup k with
      | none => rfl
      | some r => rw [hx] at h; simp at h
    rw [lookup_append_of_none reg _ k hn]
    simp [List.lookup]

/-- C8 (amended): registry creation on upload performs no duplicate check:
after `upload_register`, the file id (the 16-character prefix of the
plaintext hash) maps to the newly built record, silently replacing any
previously existing record with that id — no DuplicateId error exists in
the code. -/
theorem upload_overwrites_existing (reg : List (String × FileRecord))
    (enc : EncryptResult) (ipfs : IpfsResult) (date : String) :
    (upload_register reg enc ipfs date).1.lookup (enc.original_hash.take 16) =
      some (mkUploadRecord ipfs enc date) := by
  unfold upload_register
  exact lookup_dictInsert reg (enc.original_hash.take 16) (mkUploadRecord ipfs enc date)

/-- A concrete upload result used for the C8 counterexample. -/
def cexEnc : EncryptResult :=
  { encrypted_data := [1]
    salt := [0]
    original_hash := "abcdef"
    original_name := "f"
    original_size := 1
    encrypted_size := 2 }

/-- Counterexample for C8 as stated: uploading a file whose id already
exists in the registry does not fail with a DuplicateId error — the
operation succeeds and the existing record is silently replaced by the
new (different) record. -/
theorem registry_create_silently_overwrites :
    ("abcdef" = cexEnc.original_hash.take 16) ∧
    (upload_register [("abcdef", mkUploadRecord ⟨"cid1", "m1"⟩ cexEnc "2026-01-01")]
        cexEnc ⟨"cid2", "m2"⟩ "2026-01-02").1 =
      [("abcdef", mkUploadRecord ⟨"cid2", "m2"⟩ cexEnc "2026-01-02")] ∧
    mkUploadRecord ⟨"cid2", "m2"⟩ cexEnc "2026-01-02" ≠
      mkUploadRecord ⟨"cid1", "m1"⟩ cexEnc "2026-01-01" := by
  decide

/-- C9: every registry mutation — record creation on upload, pin-status
update on transaction confirmation, and deletion — preserves the
invariant that a record with `blockchain_pinned = true` has `pin_tx`
set. -/
theorem registry_mutations_preserve_pin_invariant (m : RegMutation)
    (reg : List (String × FileRecord)) (h : RegInv reg) :
    RegInv (applyMutation m reg) := by
  cases m with
  | create enc ipfs d =>
    intro kv hkv
    simp only [applyMutation, upload_register] at hkv
    unfold dictInsert at hkv
    split at hkv
    · rcases List.mem_map.mp hkv with ⟨kv0, hkv0, heq⟩
      by_cases hk : kv0.1 = enc.original_hash.take 16
      · rw [if_pos hk] at heq
        subst heq
        intro hp
        simp [mkUploadRecord] at hp
      · rw [if_neg hk] at heq
        subst heq
        exact h kv0 hkv0
    · rcases List.mem_append.mp hkv with hin | hin
      · exact h kv hin
      · rw [List.mem_singleton] at hin
        subst hin
        intro hp
        simp [mkUploadRecord] at hp
  | pinUpdate fid p =>
    intro kv hkv
    simp only [applyMutation] at hkv
    unfold update_file_pinning_status at hkv
    split at hkv
    · rcases List.mem_map.mp hkv with ⟨kv0, hkv0, heq⟩
      by_cases hk : kv0.1 = fid
      · rw [if_pos hk] at heq
        subst heq
        intro _
        simp [applyPinInfo]
      · rw [if_neg hk] at heq
        subst heq
        exact h kv0 hkv0
    · exact h kv hkv
  | delete fid c =>
    intro kv hkv
    simp only [applyMutation] at hkv
    unfold delete_file_registry at hkv
    split at hkv
    · exact h kv hkv
    · split at hkv
      · exact h kv hkv
      · exact h kv (List.mem_of_mem_filter hkv)

/-- Witness for C9: pin-confirming an unpinned one-record registry
preserves the invariant. -/
theorem registry_mutations_preserve_pin_invariant_w :
    RegInv [("abcdef", mkUploadRecord ⟨"cid1", "m1"⟩ cexEnc "2026-01-01")] ∧
    RegInv (applyMutation
      (.pinUpdate "abcdef" ⟨"0xtx", "2026-01-02", 30, "sepolia", 21000, 1⟩)
      [("abcdef", mkUploadRecord ⟨"cid1", "m1"⟩ cexEnc "2026-01-01")]) :=
  ⟨by simp [RegInv, mkUploadRecord],
   registry_mutations_preserve_pin_invariant _ _ (by simp [RegInv, mkUploadRecord])⟩
